import Mathlib

/-! Value checker plugin (`BOOST_MPL/plugin_ValueChecker.cpp`, `internal_register.h`)

A shallow embedding of the range checkers, the compile-time registry of checker
types, the runtime selection by index and the catalogue of registered types,
followed by the properties established about them.

Conventions of the embedding:

* `double` / `float` values are elements of an arbitrary linearly ordered type
  (`T` for the scalar checker, `F` for the point components); the comparisons of
  the source are the comparisons of that order.
* A C++ member function that mutates `*this` is a function from the old object to
  an `Outcome` holding the new object.  `Outcome.threw e s` is a propagated C++
  exception `e` that left the object in state `s`; `Outcome.undefined` is undefined
  behaviour (dereferencing the empty `unique_ptr`, indexing a vector out of range).
* The static members `createChecker::checker` and `createListOfTypes::listOfTypes`
  are fields of `State`, next to the plugin object itself.
-/

namespace ValueChecker

/-! ## Framework types used by the source but declared elsewhere -/

/-- Modelled from the spec: `CPluginVanishingPoint` is declared outside the
repository; the source only uses its two components `x` and `y` ("a 2-component
point type"). -/
structure CPluginVanishingPoint (F : Type) where
  x : F
  y : F
deriving DecidableEq, Repr

/-- Modelled from the spec: `AttributeIndex<Type, Mode, Access>` is declared outside
the repository; it is the handle obtained from an attribute name ("resolves a name
to a strongly-typed handle"), kept here as the name it was built from. -/
structure AttributeIndex where
  name : String
deriving DecidableEq, Repr

/-- Modelled from the spec: `Attributes` is declared outside the repository; it is
the attribute record, read by handle at the value type of the handle and written
at `CPluginBool` by `store`. -/
structure Attributes (T F : Type) where
  simple : String → T
  vanishingPoint : String → CPluginVanishingPoint F
  bool : String → Option Bool

/-- Reading `attrs.access(index)` with an `AttributeIndex<CDataSimple<T>, ...>`. -/
def Attributes.accessSimple {T F : Type} (attrs : Attributes T F) (index : AttributeIndex) : T :=
  attrs.simple index.name

/-- Reading `attrs.access(index)` with an `AttributeIndex<CPluginVanishingPoint, ...>`. -/
def Attributes.accessVP {T F : Type} (attrs : Attributes T F) (index : AttributeIndex) :
    CPluginVanishingPoint F :=
  attrs.vanishingPoint index.name

/-- Writing `attrs->store(index, value)` with an `AttributeIndex<CPluginBool, Create, ...>`. -/
def Attributes.store {T F : Type} (attrs : Attributes T F) (index : AttributeIndex) (value : Bool) :
    Attributes T F :=
  { attrs with bool := fun n => if n = index.name then some value else attrs.bool n }

/-- Modelled from the spec: what the source takes from its environment and the
repository does not contain: `boost::lexical_cast<T>` (`none` when it throws
`bad_lexical_cast`), `tools::VAL(text, values, ",")` (the vector it fills, `none`
when it raises), `typeid(double).name()`, and the contents of the members that the
constructors leave uninitialised. -/
structure Env (T F : Type) where
  lexical_cast : String → Option T
  VAL : String → Option (List F)
  typeidName : String
  simpleMin0 : T
  simpleMax0 : T
  vpMin0 : CPluginVanishingPoint F
  vpMax0 : CPluginVanishingPoint F
  dataType0 : Int

/-- C++ exceptions that can leave the checkers. -/
inductive Exception where
  | bad_lexical_cast
  | VAL_failure
deriving DecidableEq, Repr

/-- Result of running a member function on an object of type `σ`. -/
inductive Outcome (σ : Type) where
  | done (s : σ)
  | threw (e : Exception) (s : σ)
  | undefined
deriving DecidableEq, Repr

/-- Lift a function on the object through an outcome. -/
def Outcome.map {σ τ : Type} (f : σ → τ) : Outcome σ → Outcome τ
  | .done s => .done (f s)
  | .threw e s => .threw e (f s)
  | .undefined => .undefined

/-! ## `VPChecker` -/

/-- Data members of `class VPChecker`. -/
structure VPChecker (F : Type) where
  m_attrIndex : AttributeIndex
  m_minValue : CPluginVanishingPoint F
  m_maxValue : CPluginVanishingPoint F
deriving DecidableEq, Repr

/-- Constructor `VPChecker(std::string attrName)`: only `m_attrIndex` is initialised. -/
def VPChecker.new {T F : Type} (env : Env T F) (attrName : String) : VPChecker F :=
  { m_attrIndex := ⟨attrName⟩, m_minValue := env.vpMin0, m_maxValue := env.vpMax0 }

/-- The static `VPChecker::getTypeName()`. -/
def VPChecker.getTypeName : String := "VanishingPoint"

/-- Member `VPChecker::setAttributeName`. -/
def VPChecker.setAttributeName {F : Type} (c : VPChecker F) (newName : String) :
    Outcome (VPChecker F) :=
  .done { c with m_attrIndex := ⟨newName⟩ }

/-- Member `VPChecker::setMinValue`: `values[0]` and `values[1]` of the vector filled
by `tools::VAL`. -/
def VPChecker.setMinValue {T F : Type} (env : Env T F) (c : VPChecker F) (newMinValue : String) :
    Outcome (VPChecker F) :=
  match env.VAL newMinValue with
  | none => .threw .VAL_failure c
  | some values =>
    match values.get? 0, values.get? 1 with
    | some v0, some v1 => .done { c with m_minValue := ⟨v0, v1⟩ }
    | _, _ => .undefined

/-- Member `VPChecker::setMaxValue`. -/
def VPChecker.setMaxValue {T F : Type} (env : Env T F) (c : VPChecker F) (newMaxValue : String) :
    Outcome (VPChecker F) :=
  match env.VAL newMaxValue with
  | none => .threw .VAL_failure c
  | some values =>
    match values.get? 0, values.get? 1 with
    | some v0, some v1 => .done { c with m_maxValue := ⟨v0, v1⟩ }
    | _, _ => .undefined

/-- Member `VPChecker::inLimits`, with the four comparisons exactly as written in the
source: `attr.x >= m_minValue.x && attr.y >= m_minValue.x &&
attr.x <= m_maxValue.x && attr.y <= m_minValue.y`. -/
def VPChecker.inLimits {T F : Type} [LinearOrder F] (c : VPChecker F) (attrs : Attributes T F) :
    Bool :=
  let attr := attrs.accessVP c.m_attrIndex
  decide (attr.x ≥ c.m_minValue.x) && decide (attr.y ≥ c.m_minValue.x) &&
  decide (attr.x ≤ c.m_maxValue.x) && decide (attr.y ≤ c.m_minValue.y)

/-! ## `SimpleDataChecker<T>` -/

/-- Data members of `class SimpleDataChecker<T>`. -/
structure SimpleDataChecker (T : Type) where
  m_attrIndex : AttributeIndex
  m_minValue : T
  m_maxValue : T
deriving DecidableEq, Repr

/-- Constructor `SimpleDataChecker(std::string attrName)`: only `m_attrIndex` is
initialised. -/
def SimpleDataChecker.new {T F : Type} (env : Env T F) (attrName : String) : SimpleDataChecker T :=
  { m_attrIndex := ⟨attrName⟩, m_minValue := env.simpleMin0, m_maxValue := env.simpleMax0 }

/-- The static `SimpleDataChecker<T>::getTypeName()`, namely `typeid(T).name()`. -/
def SimpleDataChecker.getTypeName {T F : Type} (env : Env T F) : String := env.typeidName

/-- Member `SimpleDataChecker::setAttributeName`. -/
def SimpleDataChecker.setAttributeName {T : Type} (c : SimpleDataChecker T) (newName : String) :
    Outcome (SimpleDataChecker T) :=
  .done { c with m_attrIndex := ⟨newName⟩ }

/-- Member `SimpleDataChecker::setMinValue`: the assignment happens only when
`lexical_cast` returns. -/
def SimpleDataChecker.setMinValue {T F : Type} (env : Env T F) (c : SimpleDataChecker T)
    (newMinValue : String) : Outcome (SimpleDataChecker T) :=
  match env.lexical_cast newMinValue with
  | none => .threw .bad_lexical_cast c
  | some v => .done { c with m_minValue := v }

/-- Member `SimpleDataChecker::setMaxValue`. -/
def SimpleDataChecker.setMaxValue {T F : Type} (env : Env T F) (c : SimpleDataChecker T)
    (newMaxValue : String) : Outcome (SimpleDataChecker T) :=
  match env.lexical_cast newMaxValue with
  | none => .threw .bad_lexical_cast c
  | some v => .done { c with m_maxValue := v }

/-- Member `SimpleDataChecker::inLimits`: `attr >= m_minValue && attr <= m_maxValue`. -/
def SimpleDataChecker.inLimits {T F : Type} [LinearOrder T] (c : SimpleDataChecker T)
    (attrs : Attributes T F) : Bool :=
  let attr := attrs.accessSimple c.m_attrIndex
  decide (attr ≥ c.m_minValue) && decide (attr ≤ c.m_maxValue)

/-! ## `IChecker` and the registry of checker types -/

/-- An object behind `std::unique_ptr<IChecker>`: one of the two concrete classes. -/
inductive IChecker (T F : Type) where
  | simple (c : SimpleDataChecker T)
  | vp (c : VPChecker F)
deriving DecidableEq, Repr

/-- Virtual call `checker->setAttributeName(newName)`. -/
def IChecker.setAttributeName {T F : Type} (ch : IChecker T F) (newName : String) :
    Outcome (IChecker T F) :=
  match ch with
  | .simple c => (c.setAttributeName newName).map .simple
  | .vp c => (c.setAttributeName newName).map .vp

/-- Virtual call `checker->setMinValue(newMinValue)`. -/
def IChecker.setMinValue {T F : Type} (env : Env T F) (ch : IChecker T F) (newMinValue : String) :
    Outcome (IChecker T F) :=
  match ch with
  | .simple c => (c.setMinValue env newMinValue).map .simple
  | .vp c => (c.setMinValue env newMinValue).map .vp

/-- Virtual call `checker->setMaxValue(newMaxValue)`. -/
def IChecker.setMaxValue {T F : Type} (env : Env T F) (ch : IChecker T F) (newMaxValue : String) :
    Outcome (IChecker T F) :=
  match ch with
  | .simple c => (c.setMaxValue env newMaxValue).map .simple
  | .vp c => (c.setMaxValue env newMaxValue).map .vp

/-- Virtual call `checker->inLimits(attrs)`. -/
def IChecker.inLimits {T F : Type} [LinearOrder T] [LinearOrder F] (ch : IChecker T F)
    (attrs : Attributes T F) : Bool :=
  match ch with
  | .simple c => c.inLimits attrs
  | .vp c => c.inLimits attrs

/-- The attribute handle a checker is bound to. -/
def IChecker.attrIndex {T F : Type} : IChecker T F → AttributeIndex
  | .simple c => c.m_attrIndex
  | .vp c => c.m_attrIndex

/-- The checker classes that the source registers. -/
inductive CheckerType where
  | SimpleDataChecker_double
  | VPChecker
deriving DecidableEq, Repr

/-- Modelled from the spec: `registration.h` is not in the repository; it starts
the type list that `REGISTER_CHECKER()` extends, empty before the first
registration ("index equal to its registration position", 0-based). -/
abbrev checkers0 : List CheckerType := []

/-- The `boost::mpl::push_back<CHECKERS_LIST(), CHECKER_TO_REGISTER>::type` of
`internal_register.h`. -/
abbrev push_back (list : List CheckerType) (c : CheckerType) : List CheckerType := list ++ [c]

/-- First `#include REGISTER_CHECKER()`, with `CHECKER_TO_REGISTER SimpleDataChecker<double>`. -/
abbrev checkers1 : List CheckerType := push_back checkers0 .SimpleDataChecker_double

/-- Second `#include REGISTER_CHECKER()`, with `CHECKER_TO_REGISTER VPChecker`. -/
abbrev checkers2 : List CheckerType := push_back checkers1 .VPChecker

/-- The list `CHECKERS_LIST()` names after both registrations. -/
abbrev CHECKERS_LIST : List CheckerType := checkers2

/-- The constant `boost::mpl::size<CHECKERS_LIST()>::value`. -/
abbrev CHECKERS_SIZE : Nat := CHECKERS_LIST.length

/-- The sequence `checkersIndexes`, `boost::mpl::range_c<unsigned int, 0, size>`. -/
def checkersIndexes : List (Fin CHECKERS_SIZE) := List.finRange CHECKERS_SIZE

/-- The type `boost::mpl::at_c<CHECKERS_LIST(), U::value>::type`. -/
def at_c (U : Fin CHECKERS_SIZE) : CheckerType := CHECKERS_LIST.get U

/-- The call `boost::mpl::for_each<Sequence>(f)`: applies `f` to every element in order. -/
def for_each {α σ : Type} (sequence : List α) (f : α → σ → σ) (s : σ) : σ :=
  sequence.foldl (fun acc u => f u acc) s

/-- Conversion of an `int` to `unsigned int` (32 bits), as done by `i == U::value`. -/
def toUnsigned (i : Int) : Nat := (i % 4294967296).toNat

/-- The expression `std::make_unique<at_c<...>::type>(std::move(attrName))`. -/
def make_unique {T F : Type} (env : Env T F) (ty : CheckerType) (attrName : String) :
    IChecker T F :=
  match ty with
  | .SimpleDataChecker_double => .simple (SimpleDataChecker.new env attrName)
  | .VPChecker => .vp (VPChecker.new env attrName)

/-- The static `getTypeName()` of a registered class. -/
def getTypeName {T F : Type} (env : Env T F) (ty : CheckerType) : String :=
  match ty with
  | .SimpleDataChecker_double => SimpleDataChecker.getTypeName env
  | .VPChecker => VPChecker.getTypeName

/-- Call `createChecker::operator()(i, attrName, U)`, acting on the static
`createChecker::checker`. -/
def createChecker.call {T F : Type} (env : Env T F) (i : Int) (attrName : String)
    (U : Fin CHECKERS_SIZE) (checker : Option (IChecker T F)) : Option (IChecker T F) :=
  if toUnsigned i = U.val then
    some (make_unique env (at_c U) attrName)
  else
    checker

/-- Call `createListOfTypes::operator()(U)`, acting on the static
`createListOfTypes::listOfTypes`. -/
def createListOfTypes.call {T F : Type} (env : Env T F) (U : Fin CHECKERS_SIZE)
    (listOfTypes : String) : String :=
  listOfTypes ++ "[" ++ getTypeName env (at_c U) ++ " " ++ toString U.val ++ "]"

/-! ## `CPluginValueChecker` -/

/-- Data members of `class CPluginValueChecker`. -/
structure CPluginValueChecker where
  m_checkedAttrName : String
  m_resultAttrName : String
  m_resultAttrIndex : AttributeIndex
  m_minValue : String
  m_maxValue : String
  m_dataType : Int
deriving DecidableEq, Repr

/-- The plugin object together with the two static members it works on. -/
structure State (T F : Type) where
  self : CPluginValueChecker
  checker : Option (IChecker T F)
  listOfTypes : String
deriving DecidableEq, Repr

/-- Constructor `CPluginValueChecker::CPluginValueChecker`; `m_dataType` has no
initialiser. -/
def CPluginValueChecker.new {T F : Type} (env : Env T F) : CPluginValueChecker :=
  { m_checkedAttrName := "region"
    m_resultAttrName := "defect"
    m_resultAttrIndex := ⟨"defect"⟩
    m_minValue := "0.0"
    m_maxValue := "0.0"
    m_dataType := env.dataType0 }

/-- State after constructing the plugin: the static `unique_ptr` is empty and the
static stream holds no text. -/
def State.initial {T F : Type} (env : Env T F) : State T F :=
  { self := CPluginValueChecker.new env, checker := none, listOfTypes := "" }

/-- One `publish_cb1_p(iface, this, callback, member, name, values, description, dflt)`
as the host receives it. -/
structure Published where
  name : String
  values : String
  description : String
  dflt : String
deriving DecidableEq, Repr

/-- Member `CPluginValueChecker::InterfaceDefinition`: the new state and the
properties published, in order. -/
def InterfaceDefinition {T F : Type} (env : Env T F) (s : State T F) :
    State T F × List Published :=
  let l0 := ""
  let l1 := l0 ++ "["
  let l2 := for_each checkersIndexes (createListOfTypes.call env) l1
  let l3 := l2 ++ "]"
  ({ s with listOfTypes := l3 },
   [ ⟨"Data Type", l3, "Supported data types.", "0"⟩,
     ⟨"Checked Attribute", "", "Name of attribute which value should be checked.", ""⟩,
     ⟨"Result Attribute", "", "Name of attribute which contains the result of the check.", ""⟩,
     ⟨"Max Value", "", "Maximum allowed attribute value.", ""⟩,
     ⟨"Min Value", "", "Minimum allowed attribute value.", ""⟩ ])

/-- Member `CPluginValueChecker::onData`: the attribute record after the call. -/
def onData {T F : Type} [LinearOrder T] [LinearOrder F] (s : State T F)
    (attrs : Attributes T F) : Outcome (Attributes T F) :=
  match s.checker with
  | none => .undefined
  | some ch =>
    let compRes := ch.inLimits attrs
    .done (attrs.store s.self.m_resultAttrIndex compRes)

/-- Member `CPluginValueChecker::checkedAttrNameChanged`. -/
def checkedAttrNameChanged {T F : Type} (s : State T F) (newCheckedAttrName : String) :
    Outcome (State T F) :=
  if newCheckedAttrName ≠ "" then
    match s.checker with
    | none => .undefined
    | some ch =>
      match ch.setAttributeName newCheckedAttrName with
      | .done ch1 =>
        .done { s with checker := some ch1,
                       self := { s.self with m_checkedAttrName := newCheckedAttrName } }
      | .threw e ch1 => .threw e { s with checker := some ch1 }
      | .undefined => .undefined
  else
    .done s

/-- Member `CPluginValueChecker::resultAttrNameChanged`. -/
def resultAttrNameChanged {T F : Type} (s : State T F) (newDefectAttrName : String) :
    Outcome (State T F) :=
  if newDefectAttrName ≠ "" then
    .done { s with self := { s.self with m_resultAttrName := newDefectAttrName,
                                         m_resultAttrIndex := ⟨newDefectAttrName⟩ } }
  else
    .done s

/-- Member `CPluginValueChecker::maxValueChanged`. -/
def maxValueChanged {T F : Type} (env : Env T F) (s : State T F) (newMaxValue : String) :
    Outcome (State T F) :=
  if newMaxValue ≠ "" then
    match s.checker with
    | none => .undefined
    | some ch =>
      match ch.setMaxValue env newMaxValue with
      | .done ch1 =>
        .done { s with checker := some ch1, self := { s.self with m_maxValue := newMaxValue } }
      | .threw e ch1 => .threw e { s with checker := some ch1 }
      | .undefined => .undefined
  else
    .done s

/-- Member `CPluginValueChecker::minValueChanged`. -/
def minValueChanged {T F : Type} (env : Env T F) (s : State T F) (newMinValue : String) :
    Outcome (State T F) :=
  if newMinValue ≠ "" then
    match s.checker with
    | none => .undefined
    | some ch =>
      match ch.setMinValue env newMinValue with
      | .done ch1 =>
        .done { s with checker := some ch1, self := { s.self with m_minValue := newMinValue } }
      | .threw e ch1 => .threw e { s with checker := some ch1 }
      | .undefined => .undefined
  else
    .done s

/-- Member `CPluginValueChecker::dataTypeChanged`: every index of `checkersIndexes`
is offered to `createChecker`, then the index is stored. -/
def dataTypeChanged {T F : Type} (env : Env T F) (s : State T F) (newDataType : Int) :
    Outcome (State T F) :=
  let checker :=
    for_each checkersIndexes (createChecker.call env newDataType s.self.m_checkedAttrName)
      s.checker
  .done { s with checker := checker, self := { s.self with m_dataType := newDataType } }

/-- Sequencing of two calls on the same object: the second runs only when the first
returned. -/
def Outcome.andThen {σ : Type} (o : Outcome σ) (f : σ → Outcome σ) : Outcome σ :=
  match o with
  | .done s => f s
  | .threw e s => .threw e s
  | .undefined => .undefined

/-! ## Concrete environments used to evaluate the definitions -/

/-- Value of one character read as a decimal digit. -/
def digitValue (c : Char) : Option Nat :=
  if 48 ≤ c.toNat ∧ c.toNat ≤ 57 then some (c.toNat - 48) else none

/-- Value of a non-empty run of decimal digits. -/
def digitsValue : List Char → Option Nat
  | [] => none
  | cs => cs.foldl (fun acc c => do
      let a ← acc
      let d ← digitValue c
      pure (10 * a + d)) (some 0)

/-- Reader of decimal numerals of the shape `digits` or `digits.digits`, with an
optional leading minus sign, as rationals. -/
def readDecimal (text : String) : Option ℚ :=
  let (neg, body) :=
    match text.data with
    | '-' :: rest => (true, rest)
    | cs => (false, cs)
  let whole := body.takeWhile (fun c => c != '.')
  let rest := body.dropWhile (fun c => c != '.')
  let value : Option ℚ :=
    match rest with
    | [] => (digitsValue whole).map (fun n => (n : ℚ))
    | _ :: frac =>
      match digitsValue whole, digitsValue frac with
      | some n, some m => some ((n : ℚ) + (m : ℚ) / (10 ^ frac.length : ℚ))
      | _, _ => none
  value.map (fun q => if neg then -q else q)

/-- Split of a character list at every comma. -/
def splitComma : List Char → List (List Char)
  | [] => [[]]
  | c :: cs =>
    match splitComma cs with
    | [] => [[c]]
    | w :: ws => if c = ',' then [] :: w :: ws else (c :: w) :: ws

/-- Reader of every component as a decimal numeral; `none` when one of them is not a
numeral. -/
def readAll : List (List Char) → Option (List ℚ)
  | [] => some []
  | w :: ws =>
    match readDecimal (String.mk w), readAll ws with
    | some v, some vs => some (v :: vs)
    | _, _ => none

/-- Reader of a comma separated list of decimal numerals from a text. -/
def readList (text : String) : Option (List ℚ) :=
  readAll (splitComma text.data)

/-- An environment over the rationals: decimal readers, the GCC name of `double`,
zero in every member left uninitialised. -/
def envQ : Env ℚ ℚ :=
  { lexical_cast := readDecimal
    VAL := readList
    typeidName := "d"
    simpleMin0 := 0
    simpleMax0 := 0
    vpMin0 := ⟨0, 0⟩
    vpMax0 := ⟨0, 0⟩
    dataType0 := 0 }

/-- An attribute record holding the same scalar and the same point under every name. -/
def constAttrs (v : ℚ) (p : CPluginVanishingPoint ℚ) : Attributes ℚ ℚ :=
  { simple := fun _ => v, vanishingPoint := fun _ => p, bool := fun _ => none }

/-- Scenario on a freshly constructed plugin: select the checker registered at
`index`, then apply the minimum text, then the maximum text. -/
def scenario (index : Int) (minText maxText : String) : Outcome (State ℚ ℚ) :=
  ((dataTypeChanged envQ (State.initial envQ) index).andThen
    (fun s => minValueChanged envQ s minText)).andThen
    (fun s => maxValueChanged envQ s maxText)

/-- Verdict of the active checker of a state on a record, when there is one. -/
def verdict (s : State ℚ ℚ) (attrs : Attributes ℚ ℚ) : Option Bool :=
  s.checker.map (fun ch => ch.inLimits attrs)

/-! ## The catalogue format of the specification -/

/-- The catalogue entries in the words of the specification: one pair of display
name and index for every position `0 .. N-1` of the registry, in order. -/
def specEntries {T F : Type} (env : Env T F) : List (String × Nat) :=
  (List.finRange CHECKERS_SIZE).map (fun U => (getTypeName env (at_c U), U.val))

/-- One entry in the format of the specification, `[<displayName> <index>]`. -/
def specEntry (e : String × Nat) : String :=
  "[" ++ e.1 ++ " " ++ toString e.2 ++ "]"

/-- The catalogue string in the words of the specification,
`[name0 0][name1 1]...[nameN-1 N-1]`: the entries concatenated, nothing else. -/
def specCatalogue {T F : Type} (env : Env T F) : String :=
  String.join ((specEntries env).map specEntry)

/-- The text handed to the host for the property called `name`, if it was published. -/
def publishedValues (iface : List Published) (name : String) : Option String :=
  (iface.find? (fun p => p.name = name)).map Published.values

/-- State reached by selecting index 0 on a fresh plugin and applying the bound
texts `"1.5"` and `"3.5"`. -/
def scalarState : State ℚ ℚ :=
  { self :=
      { m_checkedAttrName := "region"
        m_resultAttrName := "defect"
        m_resultAttrIndex := ⟨"defect"⟩
        m_minValue := "1.5"
        m_maxValue := "3.5"
        m_dataType := 0 }
    checker := some (.simple ⟨⟨"region"⟩, 3 / 2, 7 / 2⟩)
    listOfTypes := "" }

/-- The state `s` with `index` stored in `m_dataType` and everything else as it is. -/
def State.withDataType {T F : Type} (s : State T F) (index : Int) : State T F :=
  { s with self := { s.self with m_dataType := index } }

/-- The state `s` with `ch` as the active checker and the two bound texts stored in
the plugin, everything else as it is. -/
def State.withBounds {T F : Type} (s : State T F) (ch : IChecker T F)
    (minText maxText : String) : State T F :=
  { s with checker := some ch,
           self := { s.self with m_minValue := minText, m_maxValue := maxText } }

/-- State reached by selecting index 1 on a fresh plugin and applying the bound
texts `"0,5"` and `"10,10"`. -/
def vpState : State ℚ ℚ :=
  { self :=
      { m_checkedAttrName := "region"
        m_resultAttrName := "defect"
        m_resultAttrIndex := ⟨"defect"⟩
        m_minValue := "0,5"
        m_maxValue := "10,10"
        m_dataType := 1 }
    checker := some (.vp ⟨⟨"region"⟩, ⟨0, 5⟩, ⟨10, 10⟩⟩)
    listOfTypes := "" }

/-- A call of one of the handlers that `InterfaceDefinition` publishes to the host. -/
inductive Call where
  | dataTypeChanged (newDataType : Int)
  | checkedAttrNameChanged (name : String)
  | resultAttrNameChanged (name : String)
  | maxValueChanged (text : String)
  | minValueChanged (text : String)
deriving DecidableEq, Repr

/-- Running one handler call on a state. -/
def step {T F : Type} (env : Env T F) (s : State T F) : Call → Outcome (State T F)
  | .dataTypeChanged newDataType => dataTypeChanged env s newDataType
  | .checkedAttrNameChanged name => checkedAttrNameChanged s name
  | .resultAttrNameChanged name => resultAttrNameChanged s name
  | .maxValueChanged text => maxValueChanged env s text
  | .minValueChanged text => minValueChanged env s text

/-- The state a call leaves behind: the new state when it returned, the state at the
throw when an exception propagated to the host, nothing after undefined behaviour. -/
def Outcome.left {σ : Type} : Outcome σ → Option σ
  | .done s => some s
  | .threw _ s => some s
  | .undefined => none

/-- Running a sequence of handler calls, the host going on after a call that threw. -/
def run {T F : Type} (env : Env T F) (s : State T F) : List Call → Option (State T F)
  | [] => some s
  | call :: calls =>
    match (step env s call).left with
    | none => none
    | some s1 => run env s1 calls

/-- Whether a call is one of the two bound changes. -/
def Call.isBoundChange : Call → Bool
  | .maxValueChanged _ => true
  | .minValueChanged _ => true
  | _ => false

/-! ## Auxiliary facts about the registry walk -/

theorem checkersIndexes_eq :
    checkersIndexes = [⟨0, by decide⟩, ⟨1, by decide⟩] := by
  decide

theorem toUnsigned_ne_of_out_of_range (i : Int)
    (hlo : -2147483648 ≤ i) (hhi : i ≤ 2147483647)
    (hout : i < 0 ∨ (CHECKERS_SIZE : Int) ≤ i) (U : Fin CHECKERS_SIZE) :
    toUnsigned i ≠ U.val := by
  have hU : U.val < 2 := U.isLt
  have hsize : (CHECKERS_SIZE : Int) = 2 := by decide
  unfold toUnsigned
  intro h
  have h2 : ((i % 4294967296).toNat : Int) = (U.val : Int) := by rw [h]
  rw [Int.toNat_of_nonneg (Int.emod_nonneg i (by decide))] at h2
  omega

theorem for_each_createChecker_of_out_of_range {T F : Type} (env : Env T F) (i : Int)
    (attrName : String) (checker : Option (IChecker T F))
    (hlo : -2147483648 ≤ i) (hhi : i ≤ 2147483647)
    (hout : i < 0 ∨ (CHECKERS_SIZE : Int) ≤ i) :
    for_each checkersIndexes (createChecker.call env i attrName) checker = checker := by
  have h := toUnsigned_ne_of_out_of_range i hlo hhi hout
  simp [checkersIndexes_eq, for_each, createChecker.call, h]

theorem for_each_createChecker_of_in_range {T F : Type} (env : Env T F) (j : Int)
    (h0 : 0 ≤ j) (hN : j < (CHECKERS_SIZE : Int)) :
    ∃ U : Fin CHECKERS_SIZE, (U.val : Int) = j ∧
      ∀ (attrName : String) (checker : Option (IChecker T F)),
        for_each checkersIndexes (createChecker.call env j attrName) checker
          = some (make_unique env (at_c U) attrName) := by
  have hsize : (CHECKERS_SIZE : Int) = 2 := by decide
  have hj : j = 0 ∨ j = 1 := by omega
  rcases hj with rfl | rfl
  · exact ⟨⟨0, by decide⟩, rfl, fun _ _ => rfl⟩
  · exact ⟨⟨1, by decide⟩, rfl, fun _ _ => rfl⟩

theorem step_boundChange_keeps_name {T F : Type} (env : Env T F) (s s1 : State T F)
    (call : Call) (hcall : call.isBoundChange = true)
    (hstep : (step env s call).left = some s1) :
    s1.self.m_checkedAttrName = s.self.m_checkedAttrName := by
  cases call with
  | dataTypeChanged i => simp [Call.isBoundChange] at hcall
  | checkedAttrNameChanged n => simp [Call.isBoundChange] at hcall
  | resultAttrNameChanged n => simp [Call.isBoundChange] at hcall
  | maxValueChanged text =>
    simp only [step, maxValueChanged] at hstep
    split at hstep
    · split at hstep
      · simp [Outcome.left] at hstep
      · split at hstep <;> simp [Outcome.left] at hstep <;> subst hstep <;> rfl
    · simp [Outcome.left] at hstep
      subst hstep
      rfl
  | minValueChanged text =>
    simp only [step, minValueChanged] at hstep
    split at hstep
    · split at hstep
      · simp [Outcome.left] at hstep
      · split at hstep <;> simp [Outcome.left] at hstep <;> subst hstep <;> rfl
    · simp [Outcome.left] at hstep
      subst hstep
      rfl

theorem run_boundChanges_keeps_name {T F : Type} (env : Env T F) (calls : List Call) :
    ∀ (s s1 : State T F), (∀ call ∈ calls, call.isBoundChange = true) →
      run env s calls = some s1 → s1.self.m_checkedAttrName = s.self.m_checkedAttrName := by
  induction calls with
  | nil =>
    intro s s1 _ hrun
    simp [run] at hrun
    subst hrun
    rfl
  | cons call calls ih =>
    intro s s1 hall hrun
    simp only [run] at hrun
    cases hleft : (step env s call).left with
    | none => simp [hleft] at hrun
    | some s2 =>
      simp only [hleft] at hrun
      have h1 := step_boundChange_keeps_name env s s2 call
        (hall call (List.mem_cons_self _ _)) hleft
      have h2 := ih s2 s1 (fun c hc => hall c (List.mem_cons_of_mem _ hc)) hrun
      rw [h2, h1]

theorem make_unique_attrIndex {T F : Type} (env : Env T F) (ty : CheckerType)
    (attrName : String) : (make_unique env ty attrName).attrIndex = ⟨attrName⟩ := by
  cases ty <;> rfl

theorem for_each_createChecker_keeps_binding {T F : Type} (env : Env T F) (i : Int)
    (attrName : String) (indexes : List (Fin CHECKERS_SIZE)) :
    ∀ checker : Option (IChecker T F),
      (∀ ch, checker = some ch → ch.attrIndex = ⟨attrName⟩) →
      ∀ ch, for_each indexes (createChecker.call env i attrName) checker = some ch →
        ch.attrIndex = ⟨attrName⟩ := by
  induction indexes with
  | nil =>
    intro checker hinv ch hch
    exact hinv ch hch
  | cons U rest ih =>
    intro checker hinv ch hch
    simp only [for_each, List.foldl_cons] at hch
    refine ih (createChecker.call env i attrName U checker) ?_ ch hch
    intro ch1 hch1
    unfold createChecker.call at hch1
    split at hch1
    · simp at hch1
      rw [← hch1]
      exact make_unique_attrIndex env (at_c U) attrName
    · exact hinv ch1 hch1

theorem step_keeps_binding {T F : Type} (env : Env T F) (s s1 : State T F) (call : Call)
    (hinv : ∀ ch, s.checker = some ch → ch.attrIndex = ⟨s.self.m_checkedAttrName⟩)
    (hstep : (step env s call).left = some s1) :
    ∀ ch, s1.checker = some ch → ch.attrIndex = ⟨s1.self.m_checkedAttrName⟩ := by
  cases call with
  | dataTypeChanged i =>
    simp only [step, dataTypeChanged, Outcome.left, Option.some.injEq] at hstep
    subst hstep
    intro ch hch
    exact for_each_createChecker_keeps_binding env i s.self.m_checkedAttrName
      checkersIndexes s.checker hinv ch hch
  | checkedAttrNameChanged n =>
    simp only [step, checkedAttrNameChanged] at hstep
    split at hstep
    · cases hc : s.checker with
      | none => simp [hc, Outcome.left] at hstep
      | some ch0 =>
        cases ch0 with
        | simple c =>
          simp [hc, IChecker.setAttributeName, SimpleDataChecker.setAttributeName,
            Outcome.map, Outcome.left] at hstep
          subst hstep
          intro ch hch
          simp at hch
          subst hch
          rfl
        | vp c =>
          simp [hc, IChecker.setAttributeName, VPChecker.setAttributeName,
            Outcome.map, Outcome.left] at hstep
          subst hstep
          intro ch hch
          simp at hch
          subst hch
          rfl
    · simp [Outcome.left] at hstep
      subst hstep
      exact hinv
  | resultAttrNameChanged n =>
    simp only [step, resultAttrNameChanged] at hstep
    split at hstep
    · simp [Outcome.left] at hstep
      subst hstep
      exact hinv
    · simp [Outcome.left] at hstep
      subst hstep
      exact hinv
  | maxValueChanged text =>
    simp only [step, maxValueChanged] at hstep
    split at hstep
    · cases hc : s.checker with
      | none => simp [hc, Outcome.left] at hstep
      | some ch0 =>
        have h0 := hinv ch0 hc
        cases ch0 with
        | simple c =>
          simp only [hc, IChecker.setMaxValue, SimpleDataChecker.setMaxValue] at hstep
          cases hp : env.lexical_cast text with
          | none =>
            simp [hp, Outcome.map, Outcome.left] at hstep
            subst hstep
            intro ch hch
            simp at hch
            subst hch
            exact h0
          | some v =>
            simp [hp, Outcome.map, Outcome.left] at hstep
            subst hstep
            intro ch hch
            simp at hch
            subst hch
            exact h0
        | vp c =>
          simp only [hc, IChecker.setMaxValue, VPChecker.setMaxValue] at hstep
          cases hp : env.VAL text with
          | none =>
            simp [hp, Outcome.map, Outcome.left] at hstep
            subst hstep
            intro ch hch
            simp at hch
            subst hch
            exact h0
          | some values =>
            match values with
            | [] => simp [hp, Outcome.map, Outcome.left] at hstep
            | [v] => simp [hp, Outcome.map, Outcome.left] at hstep
            | x :: y :: rest =>
              simp [hp, Outcome.map, Outcome.left] at hstep
              subst hstep
              intro ch hch
              simp at hch
              subst hch
              exact h0
    · simp [Outcome.left] at hstep
      subst hstep
      exact hinv
  | minValueChanged text =>
    simp only [step, minValueChanged] at hstep
    split at hstep
    · cases hc : s.checker with
      | none => simp [hc, Outcome.left] at hstep
      | some ch0 =>
        have h0 := hinv ch0 hc
        cases ch0 with
        | simple c =>
          simp only [hc, IChecker.setMinValue, SimpleDataChecker.setMinValue] at hstep
          cases hp : env.lexical_cast text with
          | none =>
            simp [hp, Outcome.map, Outcome.left] at hstep
            subst hstep
            intro ch hch
            simp at hch
            subst hch
            exact h0
          | some v =>
            simp [hp, Outcome.map, Outcome.left] at hstep
            subst hstep
            intro ch hch
            simp at hch
            subst hch
            exact h0
        | vp c =>
          simp only [hc, IChecker.setMinValue, VPChecker.setMinValue] at hstep
          cases hp : env.VAL text with
          | none =>
            simp [hp, Outcome.map, Outcome.left] at hstep
            subst hstep
            intro ch hch
            simp at hch
            subst hch
            exact h0
          | some values =>
            match values with
            | [] => simp [hp, Outcome.map, Outcome.left] at hstep
            | [v] => simp [hp, Outcome.map, Outcome.left] at hstep
            | x :: y :: rest =>
              simp [hp, Outcome.map, Outcome.left] at hstep
              subst hstep
              intro ch hch
              simp at hch
              subst hch
              exact h0
    · simp [Outcome.left] at hstep
      subst hstep
      exact hinv

theorem run_keeps_binding {T F : Type} (env : Env T F) (calls : List Call) :
    ∀ (s s1 : State T F),
      (∀ ch, s.checker = some ch → ch.attrIndex = ⟨s.self.m_checkedAttrName⟩) →
      run env s calls = some s1 →
      ∀ ch, s1.checker = some ch → ch.attrIndex = ⟨s1.self.m_checkedAttrName⟩ := by
  induction calls with
  | nil =>
    intro s s1 hinv hrun
    simp [run] at hrun
    subst hrun
    exact hinv
  | cons call calls ih =>
    intro s s1 hinv hrun
    simp only [run] at hrun
    cases hleft : (step env s call).left with
    | none => simp [hleft] at hrun
    | some s2 =>
      simp only [hleft] at hrun
      exact ih s2 s1 (step_keeps_binding env s s2 call hinv hleft) hrun

theorem InterfaceDefinition_eq {T F : Type} (env : Env T F) (s : State T F) :
    InterfaceDefinition env s
      = ({ s with listOfTypes := "[" ++ specCatalogue env ++ "]" },
         [ ⟨"Data Type", "[" ++ specCatalogue env ++ "]", "Supported data types.", "0"⟩,
           ⟨"Checked Attribute", "", "Name of attribute which value should be checked.", ""⟩,
           ⟨"Result Attribute", "",
             "Name of attribute which contains the result of the check.", ""⟩,
           ⟨"Max Value", "", "Maximum allowed attribute value.", ""⟩,
           ⟨"Min Value", "", "Minimum allowed attribute value.", ""⟩ ]) := by
  have hwalk : for_each checkersIndexes (createListOfTypes.call env) "["
      = "[" ++ specCatalogue env := by
    have h : specEntries env = [(env.typeidName, 0), ("VanishingPoint", 1)] := rfl
    rw [checkersIndexes_eq]
    simp [specCatalogue, h, specEntry, String.join, for_each, createListOfTypes.call, at_c,
      getTypeName, SimpleDataChecker.getTypeName, VPChecker.getTypeName, String.append_assoc]
    rfl
  simp [InterfaceDefinition, hwalk]

/-! ## Properties of the range checks -/

theorem SimpleDataChecker.inLimits_at_bounds {T F : Type} [LinearOrder T]
    (c : SimpleDataChecker T) (attrs : Attributes T F) (hle : c.m_minValue ≤ c.m_maxValue) :
    (attrs.accessSimple c.m_attrIndex = c.m_minValue → c.inLimits attrs = true) ∧
    (attrs.accessSimple c.m_attrIndex = c.m_maxValue → c.inLimits attrs = true) := by
  constructor <;> intro h <;> simp [SimpleDataChecker.inLimits, h, hle]

theorem SimpleDataChecker.inLimits_outside {T F : Type} [LinearOrder T]
    (c : SimpleDataChecker T) (attrs : Attributes T F)
    (hout : attrs.accessSimple c.m_attrIndex < c.m_minValue ∨
      c.m_maxValue < attrs.accessSimple c.m_attrIndex) :
    c.inLimits attrs = false := by
  rcases hout with h | h
  · simp [SimpleDataChecker.inLimits, h]
  · simp [SimpleDataChecker.inLimits, h]


/-- C1: for the scalar checker, whatever the bounds and the value read from the
record, `inLimits` answers true exactly when `min <= value` and `value <= max`. -/
theorem SimpleDataChecker.inLimits_iff {T F : Type} [LinearOrder T]
    (c : SimpleDataChecker T) (attrs : Attributes T F) :
    c.inLimits attrs = true ↔
      c.m_minValue ≤ attrs.accessSimple c.m_attrIndex ∧
      attrs.accessSimple c.m_attrIndex ≤ c.m_maxValue := by
  simp [SimpleDataChecker.inLimits]

/-- C2: with min `(0,0)` and max `(10,10)` the point `(5,5)`, which lies within
both axis ranges, is rejected by `VPChecker::inLimits` (its last comparison is
`attr.y <= m_minValue.y`), both on the checker itself and after selecting index 1
and applying the bound texts `"0,0"` and `"10,10"`; the point `(11,5)` is rejected
as well. -/
theorem VPChecker.inLimits_rejects_inner_point :
    VPChecker.inLimits (⟨⟨"region"⟩, ⟨0, 0⟩, ⟨10, 10⟩⟩ : VPChecker ℚ)
        (constAttrs 0 ⟨5, 5⟩) = false ∧
    (scenario 1 "0,0" "10,10").map (fun s => verdict s (constAttrs 0 ⟨5, 5⟩))
      = .done (some false) ∧
    VPChecker.inLimits (⟨⟨"region"⟩, ⟨0, 0⟩, ⟨10, 10⟩⟩ : VPChecker ℚ)
        (constAttrs 0 ⟨11, 5⟩) = false := by
  decide!

/-- C3: the point checker rejects a value equal to the configured max, and a value
equal to the configured min, although min <= max on both axes: with min `(0,0)`
and max `(10,10)` the value `(10,10)` is rejected, and with min `(5,0)` and max
`(10,10)` the value `(5,0)` is rejected. -/
theorem VPChecker.inLimits_rejects_bounds :
    VPChecker.inLimits (⟨⟨"region"⟩, ⟨0, 0⟩, ⟨10, 10⟩⟩ : VPChecker ℚ)
        (constAttrs 0 ⟨10, 10⟩) = false ∧
    (scenario 1 "0,0" "10,10").map (fun s => verdict s (constAttrs 0 ⟨10, 10⟩))
      = .done (some false) ∧
    VPChecker.inLimits (⟨⟨"region"⟩, ⟨5, 0⟩, ⟨10, 10⟩⟩ : VPChecker ℚ)
        (constAttrs 0 ⟨5, 0⟩) = false := by
  decide!

/-- C4: the point checker accepts a value whose y component is strictly below the
configured min of the y axis: with min `(0,5)` and max `(10,10)` the value `(0,3)`
is accepted; and it accepts a value whose y component is strictly above the max of
the y axis: with min `(0,10)` and max `(10,5)` the value `(0,7)` is accepted. -/
theorem VPChecker.inLimits_accepts_outside :
    VPChecker.inLimits (⟨⟨"region"⟩, ⟨0, 5⟩, ⟨10, 10⟩⟩ : VPChecker ℚ)
        (constAttrs 0 ⟨0, 3⟩) = true ∧
    (scenario 1 "0,5" "10,10").map (fun s => verdict s (constAttrs 0 ⟨0, 3⟩))
      = .done (some true) ∧
    VPChecker.inLimits (⟨⟨"region"⟩, ⟨0, 10⟩, ⟨10, 5⟩⟩ : VPChecker ℚ)
        (constAttrs 0 ⟨0, 7⟩) = true := by
  decide!

/-! ## Properties of the selection by index -/

/-- C5, as stated, fails: on the state with the scalar checker active and bounds
1.5 and 3.5, `dataTypeChanged` called with the indices 2 and -1 returns normally,
with the checker and its bounds untouched; on the freshly constructed plugin it
returns normally with the slot still empty. -/
theorem dataTypeChanged_out_of_range_returns :
    scenario 0 "1.5" "3.5" = .done scalarState ∧
    dataTypeChanged envQ scalarState 2 = .done (scalarState.withDataType 2) ∧
    dataTypeChanged envQ scalarState (-1) = .done (scalarState.withDataType (-1)) ∧
    (scalarState.withDataType 2).checker = some (.simple ⟨⟨"region"⟩, 3 / 2, 7 / 2⟩) ∧
    dataTypeChanged envQ (State.initial envQ) 2 = .done ((State.initial envQ).withDataType 2) ∧
    ((State.initial envQ).withDataType 2).checker = none := by
  decide!

/-- C5, amended: for every `int` index outside `[0, N)`, negative ones included,
`dataTypeChanged` returns normally, and the resulting state is the state before
the call with only `m_dataType` replaced by the index: the active checker slot
holds what it held before. -/
theorem dataTypeChanged_out_of_range {T F : Type} (env : Env T F) (s : State T F) (i : Int)
    (hlo : -2147483648 ≤ i) (hhi : i ≤ 2147483647)
    (hout : i < 0 ∨ (CHECKERS_SIZE : Int) ≤ i) :
    dataTypeChanged env s i = .done (s.withDataType i) ∧
    (s.withDataType i).checker = s.checker := by
  simp [dataTypeChanged, State.withDataType,
    for_each_createChecker_of_out_of_range env i _ _ hlo hhi hout]

theorem dataTypeChanged_out_of_range_witness :
    (-2147483648 : Int) ≤ -1 ∧ (-1 : Int) ≤ 2147483647 ∧
    ((-1 : Int) < 0 ∨ (CHECKERS_SIZE : Int) ≤ -1) ∧
    dataTypeChanged envQ scalarState (-1) = .done (scalarState.withDataType (-1)) ∧
    (scalarState.withDataType (-1)).checker = scalarState.checker :=
  ⟨by decide, by decide, Or.inl (by decide),
   dataTypeChanged_out_of_range envQ scalarState (-1) (by decide) (by decide)
     (Or.inl (by decide))⟩

/-- C6: for every index `i` in `[0, N)`, exactly one position of `checkersIndexes`
matches `i` in `createChecker`, and after the walk the slot holds a newly
constructed object of the class registered at position `i`, whatever it held
before, built from the attribute name passed in and bound to it; position 0 is
`SimpleDataChecker<double>` and position 1 is `VPChecker`; `dataTypeChanged` does
this walk with the stored `m_checkedAttrName`. -/
theorem createChecker_selects_registered {T F : Type} (env : Env T F) (s : State T F)
    (i : Int) (attrName : String) (checker : Option (IChecker T F))
    (h0 : 0 ≤ i) (hN : i < (CHECKERS_SIZE : Int)) :
    (checkersIndexes.filter (fun U => decide (toUnsigned i = U.val))).length = 1 ∧
    (∃ U : Fin CHECKERS_SIZE, (U.val : Int) = i ∧
      for_each checkersIndexes (createChecker.call env i attrName) checker
        = some (make_unique env (at_c U) attrName) ∧
      (make_unique env (at_c U) attrName).attrIndex = ⟨attrName⟩ ∧
      dataTypeChanged env s i
        = .done { s with checker := some (make_unique env (at_c U) s.self.m_checkedAttrName),
                         self := { s.self with m_dataType := i } }) ∧
    CHECKERS_LIST = [.SimpleDataChecker_double, .VPChecker] ∧
    (i = 0 → for_each checkersIndexes (createChecker.call env i attrName) checker
        = some (.simple (SimpleDataChecker.new env attrName))) ∧
    (i = 1 → for_each checkersIndexes (createChecker.call env i attrName) checker
        = some (.vp (VPChecker.new env attrName))) := by
  have hsize : (CHECKERS_SIZE : Int) = 2 := by decide
  have hi : i = 0 ∨ i = 1 := by omega
  rcases hi with rfl | rfl
  · refine ⟨by decide, ⟨⟨0, by decide⟩, rfl, rfl, rfl, rfl⟩, rfl, fun _ => rfl, fun h => ?_⟩
    exact absurd h (by decide)
  · refine ⟨by decide, ⟨⟨1, by decide⟩, rfl, rfl, rfl, rfl⟩, rfl, fun h => ?_, fun _ => rfl⟩
    exact absurd h (by decide)

theorem createChecker_selects_registered_witness :
    (0 : Int) ≤ 1 ∧ (1 : Int) < (CHECKERS_SIZE : Int) ∧
    for_each checkersIndexes (createChecker.call envQ 1 "region") none
      = some (.vp (VPChecker.new envQ "region")) :=
  ⟨by decide, by decide,
   (createChecker_selects_registered envQ scalarState 1 "region" none
      (by decide) (by decide)).2.2.2.2 rfl⟩

/-! ## Properties of the change handlers -/

/-- C7: in every state, with or without an active checker, `minValueChanged`,
`maxValueChanged` and `checkedAttrNameChanged` called with the empty string return
normally and leave the whole state as it is. -/
theorem empty_input_changes_nothing {T F : Type} (env : Env T F) (s : State T F) :
    minValueChanged env s "" = .done s ∧
    maxValueChanged env s "" = .done s ∧
    checkedAttrNameChanged s "" = .done s := by
  simp [minValueChanged, maxValueChanged, checkedAttrNameChanged]

/-- C10: with the scalar checker active, a bound text that `lexical_cast` rejects
makes `setMinValue` and `setMaxValue` throw `bad_lexical_cast` at the call and
leaves the checker as it was; `minValueChanged` and `maxValueChanged` then leave the
whole state, stored bound texts included, as it was (the empty text is skipped
before the checker is reached, every other such text propagates the exception).
When `"1.5"` and `"3.5"` are read as 3/2 and 7/2, applying them as min and max
succeeds, stores both values and both texts, and a record with value 2 is accepted
while a record with value 4 is rejected. -/
theorem scalar_bounds_parse {T F : Type} [LinearOrderedField T] [LinearOrder F]
    (env : Env T F) (s : State T F) (c : SimpleDataChecker T)
    (hactive : s.checker = some (.simple c)) :
    (∀ text : String, env.lexical_cast text = none →
      c.setMinValue env text = .threw .bad_lexical_cast c ∧
      c.setMaxValue env text = .threw .bad_lexical_cast c ∧
      minValueChanged env s text
        = (if text = "" then .done s else .threw .bad_lexical_cast s) ∧
      maxValueChanged env s text
        = (if text = "" then .done s else .threw .bad_lexical_cast s)) ∧
    (env.lexical_cast "1.5" = some (3 / 2) → env.lexical_cast "3.5" = some (7 / 2) →
      (minValueChanged env s "1.5").andThen (fun s1 => maxValueChanged env s1 "3.5")
        = .done (s.withBounds (.simple { c with m_minValue := 3 / 2, m_maxValue := 7 / 2 })
            "1.5" "3.5") ∧
      ∀ attrs : Attributes T F,
        (attrs.accessSimple c.m_attrIndex = 2 →
          onData (s.withBounds (.simple { c with m_minValue := 3 / 2, m_maxValue := 7 / 2 })
            "1.5" "3.5") attrs = .done (attrs.store s.self.m_resultAttrIndex true)) ∧
        (attrs.accessSimple c.m_attrIndex = 4 →
          onData (s.withBounds (.simple { c with m_minValue := 3 / 2, m_maxValue := 7 / 2 })
            "1.5" "3.5") attrs = .done (attrs.store s.self.m_resultAttrIndex false))) := by
  have hs : { s with checker := some (IChecker.simple c) } = s := by
    cases s
    simp_all
  constructor
  · intro text hparse
    refine ⟨?_, ?_, ?_, ?_⟩
    · simp [SimpleDataChecker.setMinValue, hparse]
    · simp [SimpleDataChecker.setMaxValue, hparse]
    · by_cases ht : text = ""
      · simp [minValueChanged, ht]
      · simp [minValueChanged, ht, hactive, IChecker.setMinValue,
          SimpleDataChecker.setMinValue, hparse, Outcome.map, hs]
    · by_cases ht : text = ""
      · simp [maxValueChanged, ht]
      · simp [maxValueChanged, ht, hactive, IChecker.setMaxValue,
          SimpleDataChecker.setMaxValue, hparse, Outcome.map, hs]
  · intro hmin hmax
    have h1 : ("1.5" : String) ≠ "" := by decide
    have h2 : ("3.5" : String) ≠ "" := by decide
    refine ⟨?_, fun attrs => ⟨fun hv => ?_, fun hv => ?_⟩⟩
    · simp [minValueChanged, maxValueChanged, Outcome.andThen, h1, h2, hactive,
        IChecker.setMinValue, IChecker.setMaxValue, SimpleDataChecker.setMinValue,
        SimpleDataChecker.setMaxValue, hmin, hmax, Outcome.map, State.withBounds]
    · have hin : (3 / 2 : T) ≤ 2 ∧ (2 : T) ≤ 7 / 2 := by constructor <;> norm_num
      simp [onData, State.withBounds, IChecker.inLimits, SimpleDataChecker.inLimits, hv, hin]
    · have hout : ¬ ((4 : T) ≤ 7 / 2) := by norm_num
      simp [onData, State.withBounds, IChecker.inLimits, SimpleDataChecker.inLimits, hv, hout]

theorem scalar_bounds_parse_witness :
    scalarState.checker = some (.simple ⟨⟨"region"⟩, 3 / 2, 7 / 2⟩) ∧
    envQ.lexical_cast "abc" = none ∧
    SimpleDataChecker.setMinValue envQ ⟨⟨"region"⟩, 3 / 2, 7 / 2⟩ "abc"
      = .threw .bad_lexical_cast ⟨⟨"region"⟩, 3 / 2, 7 / 2⟩ ∧
    SimpleDataChecker.setMaxValue envQ ⟨⟨"region"⟩, 3 / 2, 7 / 2⟩ "abc"
      = .threw .bad_lexical_cast ⟨⟨"region"⟩, 3 / 2, 7 / 2⟩ ∧
    minValueChanged envQ scalarState "abc"
      = (if ("abc" : String) = "" then .done scalarState
         else .threw .bad_lexical_cast scalarState) ∧
    maxValueChanged envQ scalarState "abc"
      = (if ("abc" : String) = "" then .done scalarState
         else .threw .bad_lexical_cast scalarState) ∧
    envQ.lexical_cast "1.5" = some (3 / 2) ∧ envQ.lexical_cast "3.5" = some (7 / 2) ∧
    (minValueChanged envQ scalarState "1.5").andThen
        (fun s1 => maxValueChanged envQ s1 "3.5")
      = .done (scalarState.withBounds (.simple ⟨⟨"region"⟩, 3 / 2, 7 / 2⟩) "1.5" "3.5") ∧
    onData (scalarState.withBounds (.simple ⟨⟨"region"⟩, 3 / 2, 7 / 2⟩) "1.5" "3.5")
        (constAttrs 2 ⟨0, 0⟩)
      = .done ((constAttrs 2 ⟨0, 0⟩).store ⟨"defect"⟩ true) ∧
    onData (scalarState.withBounds (.simple ⟨⟨"region"⟩, 3 / 2, 7 / 2⟩) "1.5" "3.5")
        (constAttrs 4 ⟨0, 0⟩)
      = .done ((constAttrs 4 ⟨0, 0⟩).store ⟨"defect"⟩ false) :=
  ⟨rfl, by decide,
   ((scalar_bounds_parse envQ scalarState ⟨⟨"region"⟩, 3 / 2, 7 / 2⟩ rfl).1 "abc"
      (by decide)).1,
   ((scalar_bounds_parse envQ scalarState ⟨⟨"region"⟩, 3 / 2, 7 / 2⟩ rfl).1 "abc"
      (by decide)).2.1,
   ((scalar_bounds_parse envQ scalarState ⟨⟨"region"⟩, 3 / 2, 7 / 2⟩ rfl).1 "abc"
      (by decide)).2.2.1,
   ((scalar_bounds_parse envQ scalarState ⟨⟨"region"⟩, 3 / 2, 7 / 2⟩ rfl).1 "abc"
      (by decide)).2.2.2,
   by decide!, by decide!,
   ((scalar_bounds_parse envQ scalarState ⟨⟨"region"⟩, 3 / 2, 7 / 2⟩ rfl).2
      (by decide!) (by decide!)).1,
   (((scalar_bounds_parse envQ scalarState ⟨⟨"region"⟩, 3 / 2, 7 / 2⟩ rfl).2
      (by decide!) (by decide!)).2 (constAttrs 2 ⟨0, 0⟩)).1 rfl,
   (((scalar_bounds_parse envQ scalarState ⟨⟨"region"⟩, 3 / 2, 7 / 2⟩ rfl).2
      (by decide!) (by decide!)).2 (constAttrs 4 ⟨0, 0⟩)).2 rfl⟩

/-! ## Properties of the catalogue -/

/-- C8, as stated, fails: with `typeid(double).name()` being `d`, the text handed to
the host for "Data Type" is `[[d 0][VanishingPoint 1]]`, which has one more `[` in
front of the entries and one more `]` behind them than the concatenation
`[d 0][VanishingPoint 1]` of the entries. -/
theorem published_catalogue_is_not_bare_concatenation :
    publishedValues (InterfaceDefinition envQ (State.initial envQ)).2 "Data Type"
      = some "[[d 0][VanishingPoint 1]]" ∧
    specCatalogue envQ = "[d 0][VanishingPoint 1]" ∧
    publishedValues (InterfaceDefinition envQ (State.initial envQ)).2 "Data Type"
      ≠ some (specCatalogue envQ) := by
  decide

/-- C8, amended: the text handed to the host for "Data Type" is `[`, followed by the
concatenation for i = 0 .. N-1 in order of `[` + displayName(i) + ` ` + i + `]`,
followed by `]`, with no other characters; the static buffer holds the same text
afterwards, whatever it held before. -/
theorem published_catalogue_format {T F : Type} (env : Env T F) (s : State T F) :
    publishedValues (InterfaceDefinition env s).2 "Data Type"
      = some ("[" ++ specCatalogue env ++ "]") ∧
    (InterfaceDefinition env s).1.listOfTypes = "[" ++ specCatalogue env ++ "]" ∧
    specCatalogue env
      = "[" ++ env.typeidName ++ " " ++ "0" ++ "]" ++
        ("[" ++ "VanishingPoint" ++ " " ++ "1" ++ "]") := by
  have hcat : specCatalogue env
      = "[" ++ env.typeidName ++ " " ++ "0" ++ "]" ++
        ("[" ++ "VanishingPoint" ++ " " ++ "1" ++ "]") := by
    have h : specEntries env = [(env.typeidName, 0), ("VanishingPoint", 1)] := rfl
    simp [specCatalogue, h, specEntry, String.join, String.append_assoc]
    rfl
  have hwalk : for_each checkersIndexes (createListOfTypes.call env) "["
      = "[" ++ specCatalogue env := by
    rw [hcat, checkersIndexes_eq]
    simp [for_each, createListOfTypes.call, at_c, getTypeName, SimpleDataChecker.getTypeName,
      VPChecker.getTypeName, String.append_assoc]
    rfl
  refine ⟨?_, ?_, hcat⟩
  · simp [publishedValues, InterfaceDefinition, hwalk, List.find?]
  · simp [InterfaceDefinition, hwalk]

/-- C9: visiting `checkersIndexes` with `createListOfTypes` appends to the buffer
exactly N entries, N being the number of registered classes; the indices printed
are 0, 1, ..., N-1 in increasing order; and every entry carries the display name of
the class registered at its index. -/
theorem catalogue_entries_follow_registry {T F : Type} (env : Env T F) (buffer : String) :
    for_each checkersIndexes (createListOfTypes.call env) buffer
      = buffer ++ String.join ((specEntries env).map specEntry) ∧
    (specEntries env).length = CHECKERS_LIST.length ∧
    (specEntries env).map Prod.snd = List.range CHECKERS_LIST.length ∧
    (specEntries env).map Prod.fst = CHECKERS_LIST.map (getTypeName env) ∧
    for_each checkersIndexes (createListOfTypes.call env) buffer
      = buffer ++ ("[" ++ env.typeidName ++ " " ++ "0" ++ "]") ++
          ("[" ++ "VanishingPoint" ++ " " ++ "1" ++ "]") := by
  have h : specEntries env = [(env.typeidName, 0), ("VanishingPoint", 1)] := rfl
  have hwalk : for_each checkersIndexes (createListOfTypes.call env) buffer
      = buffer ++ ("[" ++ env.typeidName ++ " " ++ "0" ++ "]") ++
          ("[" ++ "VanishingPoint" ++ " " ++ "1" ++ "]") := by
    rw [checkersIndexes_eq]
    simp [for_each, createListOfTypes.call, at_c, getTypeName, SimpleDataChecker.getTypeName,
      VPChecker.getTypeName, String.append_assoc]
    rfl
  refine ⟨?_, rfl, rfl, rfl, hwalk⟩
  rw [hwalk, h]
  simp [specEntry, String.join, String.append_assoc]
  rfl

/-! ## Properties of the point checker bounds and of evaluation -/

theorem VPChecker.setMinValue_of_VAL_short {T F : Type} (env : Env T F) (c : VPChecker F)
    (text : String) (values : List F) (hval : env.VAL text = some values)
    (hshort : values.length < 2) :
    c.setMinValue env text = .undefined ∧ c.setMaxValue env text = .undefined := by
  match values, hshort with
  | [], _ => simp [VPChecker.setMinValue, VPChecker.setMaxValue, hval]
  | [v], _ => simp [VPChecker.setMinValue, VPChecker.setMaxValue, hval]

theorem VPChecker.setMinValue_of_VAL_long {T F : Type} (env : Env T F) (c : VPChecker F)
    (text : String) (x y : F) (rest : List F) (hval : env.VAL text = some (x :: y :: rest)) :
    c.setMinValue env text = .done { c with m_minValue := ⟨x, y⟩ } ∧
    c.setMaxValue env text = .done { c with m_maxValue := ⟨x, y⟩ } := by
  simp [VPChecker.setMinValue, VPChecker.setMaxValue, hval]

/-- C11: the point checker does not reject a bound text with a wrong number of
components. The text `"5"` is split into the single value 5, and `setMinValue` /
`setMaxValue` then read `values[1]` of a one-element vector (undefined behaviour,
no exception), also when reached through `minValueChanged`; the text `"1,2,3"` is
accepted and its first two components become the bound. -/
theorem VPChecker.setMinValue_wrong_component_count :
    envQ.VAL "5" = some [5] ∧
    VPChecker.setMinValue envQ ⟨⟨"region"⟩, ⟨0, 0⟩, ⟨10, 10⟩⟩ "5" = .undefined ∧
    VPChecker.setMaxValue envQ ⟨⟨"region"⟩, ⟨0, 0⟩, ⟨10, 10⟩⟩ "5" = .undefined ∧
    scenario 1 "5" "10,10" = .undefined ∧
    envQ.VAL "1,2,3" = some [1, 2, 3] ∧
    VPChecker.setMinValue envQ ⟨⟨"region"⟩, ⟨0, 0⟩, ⟨10, 10⟩⟩ "1,2,3"
      = .done ⟨⟨"region"⟩, ⟨1, 2⟩, ⟨10, 10⟩⟩ ∧
    VPChecker.setMaxValue envQ ⟨⟨"region"⟩, ⟨0, 0⟩, ⟨10, 10⟩⟩ "1,2,3"
      = .done ⟨⟨"region"⟩, ⟨0, 0⟩, ⟨1, 2⟩⟩ := by
  decide!

/-- C12: `onData` on the freshly constructed plugin, or on any state whose checker
slot is empty, dereferences the empty `unique_ptr` (undefined behaviour, no error is
reported); with a checker in the slot it returns and stores exactly the `inLimits`
result of that checker for the record. -/
theorem onData_without_checker {T F : Type} [LinearOrder T] [LinearOrder F]
    (env : Env T F) (s : State T F) (ch : IChecker T F) (attrs : Attributes T F) :
    onData (State.initial env) attrs = .undefined ∧
    onData { s with checker := none } attrs = .undefined ∧
    onData { s with checker := some ch } attrs
      = .done (attrs.store s.self.m_resultAttrIndex (ch.inLimits attrs)) := by
  exact ⟨rfl, rfl, rfl⟩

/-- C14: for every `int` index outside `[0, N)`, negative ones included (the index
is converted to `unsigned int` for the comparison `i == U::value`), no index of
`checkersIndexes` matches in `createChecker`, the walk leaves the slot as it was,
and after `dataTypeChanged` the slot holds exactly what it held before. -/
theorem createChecker_no_match_out_of_range {T F : Type} (env : Env T F) (s : State T F)
    (i : Int) (attrName : String) (checker : Option (IChecker T F))
    (hlo : -2147483648 ≤ i) (hhi : i ≤ 2147483647)
    (hout : i < 0 ∨ (CHECKERS_SIZE : Int) ≤ i) :
    checkersIndexes.filter (fun U => decide (toUnsigned i = U.val)) = [] ∧
    for_each checkersIndexes (createChecker.call env i attrName) checker = checker ∧
    (dataTypeChanged env s i).map (fun s1 => s1.checker) = .done s.checker := by
  have h := toUnsigned_ne_of_out_of_range i hlo hhi hout
  refine ⟨?_, for_each_createChecker_of_out_of_range env i attrName checker hlo hhi hout, ?_⟩
  · simp [List.filter_eq_nil_iff, h]
  · simp [dataTypeChanged, Outcome.map,
      for_each_createChecker_of_out_of_range env i _ _ hlo hhi hout]

theorem createChecker_no_match_out_of_range_witness :
    (-2147483648 : Int) ≤ 2 ∧ (2 : Int) ≤ 2147483647 ∧
    ((2 : Int) < 0 ∨ (CHECKERS_SIZE : Int) ≤ 2) ∧
    checkersIndexes.filter (fun U => decide (toUnsigned 2 = U.val)) = [] ∧
    for_each checkersIndexes (createChecker.call envQ 2 "region") vpState.checker
      = vpState.checker ∧
    (dataTypeChanged envQ vpState 2).map (fun s1 => s1.checker) = .done vpState.checker :=
  ⟨by decide, by decide, Or.inr (by decide),
   createChecker_no_match_out_of_range envQ vpState 2 "region" vpState.checker
     (by decide) (by decide) (Or.inr (by decide))⟩

/-- C17: the result of `VPChecker::inLimits` does not depend on the y component of
the configured max: two max points that agree on x give the same answer for every
min and every record; and whenever the answer is true, the y component of the point
lies between `min.x` and `min.y`. -/
theorem VPChecker.inLimits_ignores_max_y {T F : Type} [LinearOrder F] (c : VPChecker F)
    (max1 max2 : CPluginVanishingPoint F) (attrs : Attributes T F) (hx : max1.x = max2.x) :
    VPChecker.inLimits { c with m_maxValue := max1 } attrs
      = VPChecker.inLimits { c with m_maxValue := max2 } attrs ∧
    (VPChecker.inLimits c attrs = true →
      c.m_minValue.x ≤ (attrs.accessVP c.m_attrIndex).y ∧
      (attrs.accessVP c.m_attrIndex).y ≤ c.m_minValue.y) := by
  constructor
  · simp [VPChecker.inLimits, hx]
  · intro h
    simp [VPChecker.inLimits] at h
    exact ⟨h.1.1.2, h.2⟩

theorem VPChecker.inLimits_ignores_max_y_witness :
    (10 : ℚ) = 10 ∧
    VPChecker.inLimits (⟨⟨"region"⟩, ⟨0, 5⟩, ⟨10, 10⟩⟩ : VPChecker ℚ) (constAttrs 0 ⟨0, 3⟩)
      = VPChecker.inLimits (⟨⟨"region"⟩, ⟨0, 5⟩, ⟨10, -7⟩⟩ : VPChecker ℚ)
          (constAttrs 0 ⟨0, 3⟩) ∧
    VPChecker.inLimits (⟨⟨"region"⟩, ⟨0, 5⟩, ⟨10, 10⟩⟩ : VPChecker ℚ) (constAttrs 0 ⟨0, 3⟩)
      = true ∧
    (0 : ℚ) ≤ 3 ∧ (3 : ℚ) ≤ 5 :=
  ⟨rfl,
   (VPChecker.inLimits_ignores_max_y (⟨⟨"region"⟩, ⟨0, 5⟩, ⟨10, 10⟩⟩ : VPChecker ℚ)
      ⟨10, 10⟩ ⟨10, -7⟩ (constAttrs 0 ⟨0, 3⟩) rfl).1,
   by decide!,
   (VPChecker.inLimits_ignores_max_y (⟨⟨"region"⟩, ⟨0, 5⟩, ⟨10, 10⟩⟩ : VPChecker ℚ)
      ⟨10, 10⟩ ⟨10, -7⟩ (constAttrs 0 ⟨0, 3⟩) rfl).2 (by decide!)⟩

/-! ## Properties of selection and of the bound changes -/

/-- C13: selection replaces the active checker without memory. For every index `j`
in `[0, N)` the walk of `createChecker` leaves the same newly constructed object
whatever the slot held before; and two runs from the same state that differ only in
the `minValueChanged` / `maxValueChanged` calls made before `dataTypeChanged(j)` end
with the same active checker, the object constructed for position `j` from the
stored attribute name, which carries none of the bounds applied earlier. -/
theorem selection_forgets_previous_checker {T F : Type} (env : Env T F)
    (s t1 t2 : State T F) (pre1 pre2 : List Call) (j : Int)
    (h0 : 0 ≤ j) (hN : j < (CHECKERS_SIZE : Int))
    (hpre1 : ∀ call ∈ pre1, call.isBoundChange = true)
    (hpre2 : ∀ call ∈ pre2, call.isBoundChange = true)
    (hrun1 : run env s pre1 = some t1) (hrun2 : run env s pre2 = some t2) :
    (∀ (attrName : String) (prev1 prev2 : Option (IChecker T F)),
      for_each checkersIndexes (createChecker.call env j attrName) prev1
        = for_each checkersIndexes (createChecker.call env j attrName) prev2) ∧
    (dataTypeChanged env t1 j).map (fun r => r.checker)
      = (dataTypeChanged env t2 j).map (fun r => r.checker) ∧
    ∃ U : Fin CHECKERS_SIZE, (U.val : Int) = j ∧
      (dataTypeChanged env t1 j).map (fun r => r.checker)
        = .done (some (make_unique env (at_c U) s.self.m_checkedAttrName)) := by
  obtain ⟨U, hU, hwalk⟩ := for_each_createChecker_of_in_range env j h0 hN
  have hn1 := run_boundChanges_keeps_name env pre1 s t1 hpre1 hrun1
  have hn2 := run_boundChanges_keeps_name env pre2 s t2 hpre2 hrun2
  refine ⟨fun attrName prev1 prev2 => by rw [hwalk, hwalk], ?_, U, hU, ?_⟩
  · simp [dataTypeChanged, Outcome.map, hwalk, hn1, hn2]
  · simp [dataTypeChanged, Outcome.map, hwalk, hn1]

theorem selection_forgets_previous_checker_witness :
    (0 : Int) ≤ 1 ∧ (1 : Int) < (CHECKERS_SIZE : Int) ∧
    run envQ scalarState [.minValueChanged "2.5", .maxValueChanged "9"]
      = some (scalarState.withBounds (.simple ⟨⟨"region"⟩, 5 / 2, 9⟩) "2.5" "9") ∧
    run envQ scalarState [] = some scalarState ∧
    (dataTypeChanged envQ
        (scalarState.withBounds (.simple ⟨⟨"region"⟩, 5 / 2, 9⟩) "2.5" "9") 1).map
        (fun r => r.checker)
      = (dataTypeChanged envQ scalarState 1).map (fun r => r.checker) :=
  ⟨by decide, by decide, by decide!, rfl,
   (selection_forgets_previous_checker envQ scalarState
      (scalarState.withBounds (.simple ⟨⟨"region"⟩, 5 / 2, 9⟩) "2.5" "9") scalarState
      [.minValueChanged "2.5", .maxValueChanged "9"] [] 1 (by decide) (by decide)
      (by decide) (by decide) (by decide!) rfl).2.1⟩

/-- C15: with a checker active and a non-empty bound text that parses for it,
`minValueChanged` replaces the min of the active checker by the parsed value and
the stored min text by the text, and `maxValueChanged` does the same for the max;
the other bound, the attribute binding, the class of the checker, the other stored
text and every other member stay as they were. For the scalar checker the parsed
value is the result of `lexical_cast`, for the point checker the first two values
of the vector filled by `tools::VAL`. -/
theorem bound_change_frame {T F : Type} (env : Env T F) (s : State T F) (text : String)
    (hne : text ≠ "") :
    (∀ (c : SimpleDataChecker T) (v : T),
      s.checker = some (.simple c) → env.lexical_cast text = some v →
      minValueChanged env s text
        = .done { s with checker := some (.simple { c with m_minValue := v }),
                         self := { s.self with m_minValue := text } } ∧
      maxValueChanged env s text
        = .done { s with checker := some (.simple { c with m_maxValue := v }),
                         self := { s.self with m_maxValue := text } }) ∧
    (∀ (c : VPChecker F) (x y : F) (rest : List F),
      s.checker = some (.vp c) → env.VAL text = some (x :: y :: rest) →
      minValueChanged env s text
        = .done { s with checker := some (.vp { c with m_minValue := ⟨x, y⟩ }),
                         self := { s.self with m_minValue := text } } ∧
      maxValueChanged env s text
        = .done { s with checker := some (.vp { c with m_maxValue := ⟨x, y⟩ }),
                         self := { s.self with m_maxValue := text } }) := by
  constructor
  · intro c v hactive hparse
    simp [minValueChanged, maxValueChanged, hne, hactive, IChecker.setMinValue,
      IChecker.setMaxValue, SimpleDataChecker.setMinValue, SimpleDataChecker.setMaxValue,
      hparse, Outcome.map]
  · intro c x y rest hactive hparse
    simp [minValueChanged, maxValueChanged, hne, hactive, IChecker.setMinValue,
      IChecker.setMaxValue, VPChecker.setMinValue, VPChecker.setMaxValue,
      hparse, Outcome.map]

theorem bound_change_frame_witness :
    ("2.5" : String) ≠ "" ∧ ("1,2" : String) ≠ "" ∧
    minValueChanged envQ scalarState "2.5"
      = .done { scalarState with
                  checker := some (.simple ⟨⟨"region"⟩, 5 / 2, 7 / 2⟩),
                  self := { scalarState.self with m_minValue := "2.5" } } ∧
    maxValueChanged envQ vpState "1,2"
      = .done { vpState with
                  checker := some (.vp ⟨⟨"region"⟩, ⟨0, 5⟩, ⟨1, 2⟩⟩),
                  self := { vpState.self with m_maxValue := "1,2" } } :=
  ⟨by decide, by decide,
   ((bound_change_frame envQ scalarState "2.5" (by decide)).1
      ⟨⟨"region"⟩, 3 / 2, 7 / 2⟩ (5 / 2) rfl (by decide!)).1,
   ((bound_change_frame envQ vpState "1,2" (by decide)).2
      ⟨⟨"region"⟩, ⟨0, 5⟩, ⟨10, 10⟩⟩ 1 2 [] rfl (by decide!)).2⟩

/-- C16: after every sequence of `dataTypeChanged`, `checkedAttrNameChanged`,
`minValueChanged`, `maxValueChanged` and `resultAttrNameChanged` calls on the
constructed plugin, calls that throw and calls that change nothing included,
whenever a checker is active the attribute name it is bound to is the stored
`m_checkedAttrName`. -/
theorem checker_bound_to_stored_name {T F : Type} (env : Env T F) (calls : List Call)
    (s : State T F) (ch : IChecker T F)
    (hrun : run env (State.initial env) calls = some s) (hactive : s.checker = some ch) :
    ch.attrIndex = ⟨s.self.m_checkedAttrName⟩ := by
  refine run_keeps_binding env calls (State.initial env) s ?_ hrun ch hactive
  intro ch0 h0
  simp [State.initial] at h0

theorem checker_bound_to_stored_name_witness :
    run envQ (State.initial envQ)
        [.dataTypeChanged 0, .checkedAttrNameChanged "width", .minValueChanged "abc",
         .maxValueChanged "", .dataTypeChanged 7, .resultAttrNameChanged "flag"]
      = some { self :=
                 { m_checkedAttrName := "width"
                   m_resultAttrName := "flag"
                   m_resultAttrIndex := ⟨"flag"⟩
                   m_minValue := "0.0"
                   m_maxValue := "0.0"
                   m_dataType := 7 }
               checker := some (.simple ⟨⟨"width"⟩, 0, 0⟩)
               listOfTypes := "" } ∧
    (IChecker.simple ⟨⟨"width"⟩, 0, 0⟩ : IChecker ℚ ℚ).attrIndex = ⟨"width"⟩ :=
  ⟨by decide!,
   checker_bound_to_stored_name envQ
     [.dataTypeChanged 0, .checkedAttrNameChanged "width", .minValueChanged "abc",
      .maxValueChanged "", .dataTypeChanged 7, .resultAttrNameChanged "flag"]
     { self :=
         { m_checkedAttrName := "width"
           m_resultAttrName := "flag"
           m_resultAttrIndex := ⟨"flag"⟩
           m_minValue := "0.0"
           m_maxValue := "0.0"
           m_dataType := 7 }
       checker := some (.simple ⟨⟨"width"⟩, 0, 0⟩)
       listOfTypes := "" }
     (.simple ⟨⟨"width"⟩, 0, 0⟩) (by decide!) rfl⟩

/-- C18: `InterfaceDefinition` clears the shared buffer before visiting the
registry, so what it publishes and what it leaves in the buffer do not depend on
the state it is called in: any two calls, on the same plugin or on another plugin
sharing the statics, after any number of earlier calls and whatever the buffer
held, hand the same catalogue to the host and leave the same buffer, in which every
registered class is listed exactly once, at its own index. -/
theorem InterfaceDefinition_idempotent {T F : Type} (env : Env T F) (s s1 : State T F)
    (other : CPluginValueChecker) (n : Nat) :
    (InterfaceDefinition env s1).2 = (InterfaceDefinition env s).2 ∧
    (InterfaceDefinition env s1).1.listOfTypes = (InterfaceDefinition env s).1.listOfTypes ∧
    (InterfaceDefinition env
        (Nat.iterate (fun t => (InterfaceDefinition env t).1) n s)).2
      = (InterfaceDefinition env s).2 ∧
    (InterfaceDefinition env { (InterfaceDefinition env s).1 with self := other }).2
      = (InterfaceDefinition env s).2 ∧
    (InterfaceDefinition env (InterfaceDefinition env s).1).1 = (InterfaceDefinition env s).1 ∧
    publishedValues (InterfaceDefinition env s).2 "Data Type"
      = some ("[" ++ (("[" ++ env.typeidName ++ " " ++ "0" ++ "]") ++
          ("[" ++ "VanishingPoint" ++ " " ++ "1" ++ "]")) ++ "]") ∧
    (InterfaceDefinition env s).1.listOfTypes
      = "[" ++ String.join ((specEntries env).map specEntry) ++ "]" ∧
    (specEntries env).map Prod.snd = List.range CHECKERS_LIST.length := by
  have hcat : specCatalogue env
      = ("[" ++ env.typeidName ++ " " ++ "0" ++ "]") ++
        ("[" ++ "VanishingPoint" ++ " " ++ "1" ++ "]") := by
    have h : specEntries env = [(env.typeidName, 0), ("VanishingPoint", 1)] := rfl
    simp [specCatalogue, h, specEntry, String.join, String.append_assoc]
    rfl
  refine ⟨?_, ?_, ?_, ?_, ?_, ?_, ?_, rfl⟩
  · rw [InterfaceDefinition_eq env s1, InterfaceDefinition_eq env s]
  · rw [InterfaceDefinition_eq env s1, InterfaceDefinition_eq env s]
  · rw [InterfaceDefinition_eq env _, InterfaceDefinition_eq env s]
  · rw [InterfaceDefinition_eq env _, InterfaceDefinition_eq env s]
  · rw [InterfaceDefinition_eq env s, InterfaceDefinition_eq env _]
  · rw [InterfaceDefinition_eq env s, hcat]
    simp [publishedValues, List.find?]
  · rw [InterfaceDefinition_eq env s]
    rfl

end ValueChecker
